import Mathlib

/-!
Verification of the Jinx server (HTTP origin, reverse proxy, forward proxy,
L4 load balancer) against its natural-language specification.

Strings are modelled as lists of characters (`Str`); Go byte-level string
operations on the ASCII data handled here coincide with the character-level
ones.  Filesystem access and the network are modelled as explicit parameters
(`FileSystem`, bind-error arguments); handlers are modelled as pure functions
from a request to the action or event list the Go code performs.
-/

namespace Jinx

/-- Strings, modelled as lists of characters. -/
abbrev Str := List Char

/-- Conversion from Lean string literals. -/
def strOf (s : String) : Str := s.data

/-- Model of `strings.Split(host, ":")[0]`: the text before the first colon. -/
def stripPort (host : Str) : Str := host.takeWhile (fun c => c ≠ ':')

/-- Model of `strings.ToLower` restricted to ASCII (the header values involved
are ASCII). -/
def toLowerChar (c : Char) : Char :=
  if 'A' ≤ c ∧ c ≤ 'Z' then Char.ofNat (c.toNat + 32) else c

/-- Model of `strings.ToLower` on a string, ASCII case folding. -/
def toLowerStr (s : Str) : Str := s.map toLowerChar

/-- Whether `pat` is a leading segment of `s` (model of `strings.HasPrefix s pat`). -/
def leadsWith (pat s : Str) : Bool :=
  match pat, s with
  | [], _ => true
  | _ :: _, [] => false
  | a :: as, b :: bs => a == b && leadsWith as bs

/-- Model of `strings.Contains s pat`. -/
def containsSub (s pat : Str) : Bool :=
  match s with
  | [] => leadsWith pat []
  | _ :: rest => leadsWith pat s || containsSub rest pat

/-- Split a path on the separator, keeping empty fields
(`strings.Split(s, "/")` on a non-empty argument). -/
def splitOnSlash : Str → List Str
  | [] => [[]]
  | c :: rest =>
    if c = '/' then [] :: splitOnSlash rest
    else
      match splitOnSlash rest with
      | [] => [[c]]
      | h :: t => (c :: h) :: t

/-- Join path components with the separator. -/
def joinSlash : List Str → Str
  | [] => []
  | [x] => x
  | x :: y :: t => x ++ '/' :: joinSlash (y :: t)

/-- The component-stack loop of Go `path.Clean`: empty and `.` components are
skipped, `..` pops a non-`..` component, at the root `..` is dropped, and in a
relative path a surplus `..` is kept.  The accumulator holds the output
components in reverse. -/
def cleanAux (rooted : Bool) : List Str → List Str → List Str
  | stack, [] => stack
  | stack, c :: rest =>
    if c = [] ∨ c = ['.'] then cleanAux rooted stack rest
    else if c = ['.', '.'] then
      match stack with
      | [] => if rooted then cleanAux rooted [] rest else cleanAux rooted [['.', '.']] rest
      | top :: s =>
        if top = ['.', '.'] then cleanAux rooted (['.', '.'] :: top :: s) rest
        else cleanAux rooted s rest
    else cleanAux rooted (c :: stack) rest

/-- Model of Go `path.Clean` (and of `path/filepath.Clean` on a Unix host):
lexical canonicalisation of a slash-separated path. -/
def cleanPath (p : Str) : Str :=
  if p = [] then ['.']
  else
    let rooted := p.head? == some '/'
    let comps := (cleanAux rooted [] (splitOnSlash p)).reverse
    if rooted then '/' :: joinSlash comps
    else if comps = [] then ['.'] else joinSlash comps

/-- `helper.SingleJoiningSlash` from `pkg/util/helper`: join a base and a path
around a single separating slash, dropping one of the two boundary slashes when
both are present and inserting one when neither is. -/
def SingleJoiningSlash (base path : Str) : Str :=
  let baseSlash := base.getLast? == some '/'
  let pathSlash := path.head? == some '/'
  if baseSlash && pathSlash then base ++ path.tail
  else if !baseSlash && !pathSlash then base ++ '/' :: path
  else base ++ path

/-- `base` with one trailing slash removed when it has one (used to state what
`SingleJoiningSlash` computes). -/
def dropOneTrailingSlash (b : Str) : Str :=
  if b.getLast? == some '/' then b.dropLast else b

/-- `path` with one leading slash removed when it has one. -/
def dropOneLeadingSlash (p : Str) : Str :=
  if p.head? == some '/' then p.tail else p

/-- `types.UpStreamServer`: one upstream descriptor of the load balancer pool. -/
structure UpStreamServer where
  IP : Str
  Port : Int
  Weight : Int
  Location : Str
deriving DecidableEq

/-- `types.JinxHttpServerConfig`. -/
structure JinxHttpServerConfig where
  IP : Str
  Port : Int
  LogRoot : Str
  WebsiteRoot : Str
  CertFile : Str
  KeyFile : Str
deriving DecidableEq

/-- `types.JinxReverseProxyServerConfig`; the `RouteTable` map is modelled as
an association list with distinct keys. -/
structure JinxReverseProxyServerConfig where
  IP : Str
  Port : Int
  LogRoot : Str
  RouteTable : List (Str × Str)
  CertFile : Str
  KeyFile : Str
deriving DecidableEq

/-- `types.JinxForwardProxyServerConfig`. -/
structure JinxForwardProxyServerConfig where
  IP : Str
  Port : Int
  LogRoot : Str
  BlackList : List Str
  CertFile : Str
  KeyFile : Str
deriving DecidableEq

/-- `types.JinxLoadBalancingServerConfig` (the fields the claims use). -/
structure JinxLoadBalancingServerConfig where
  IP : Str
  Port : Int
  LogRoot : Str
  CertFile : Str
  KeyFile : Str
  ServerPool : List UpStreamServer
deriving DecidableEq

/-- Go map indexing `tbl[path]` on the route table modelled as an association
list. -/
def lookupRoute (tbl : List (Str × Str)) (p : Str) : Option Str :=
  match tbl with
  | [] => none
  | (k, v) :: rest => if k == p then some v else lookupRoute rest p

/-- `helper.InList` instantiated, as at its call site, with the equality
predicate. -/
def InList (list : List Str) (element : Str) : Bool :=
  match list with
  | [] => false
  | el :: rest => if el == element then true else InList rest element

/-- The parts of `net/url.URL` the engines read and write. -/
structure URL where
  Scheme : Str
  Host : Str
  Path : Str
  RawQuery : Str
deriving DecidableEq

/-- The parts of `net/http.Request` the engines read: method, `Host`
header/field, URL, and the `Upgrade` and `Connection` header values. -/
structure Request where
  Method : Str
  Host : Str
  URL : URL
  UpgradeHeader : Str
  ConnectionHeader : Str
deriving DecidableEq

/-- Model of `net/url.Parse` restricted to the shapes the route table holds:
absolute URLs `scheme://host[/path]` with no userinfo, query or fragment.  When
no `://` is present the whole input is taken as the path, as `url.Parse` does
for a relative reference without a colon. -/
def urlParse (s : Str) : URL :=
  if containsSub s (strOf "://") then
    let scheme := s.takeWhile (fun c => c ≠ ':')
    let rest := s.drop (scheme.length + 3)
    let host := rest.takeWhile (fun c => c ≠ '/')
    { Scheme := scheme, Host := host, Path := rest.drop host.length, RawQuery := [] }
  else
    { Scheme := [], Host := [], Path := s, RawQuery := [] }

/-- The `Director` of the reverse proxy's `HandleHTTPProxyRequest`: rewrite the
outgoing request's scheme, URL host, `Host` field and path from the upstream
URL; the path is the single-slash join of the upstream base path and the
incoming URL path.  Query and the remaining fields are untouched. -/
def Director (upstreamURL : Str) (r : Request) : Request :=
  let target := urlParse upstreamURL
  { r with
    Host := target.Host
    URL := { r.URL with
      Scheme := target.Scheme
      Host := target.Host
      Path := SingleJoiningSlash target.Path r.URL.Path } }

/-- `reverse_proxy.DetermineUpstreamURL`: clean the request path
(`filepath.Clean`) and look it up in the route table; a miss yields the
diagnostic error message. -/
def DetermineUpstreamURL (config : JinxReverseProxyServerConfig) (r : Request) :
    Except Str Str :=
  let path := cleanPath r.URL.Path
  match lookupRoute config.RouteTable path with
  | none => Except.error (path ++ strOf " does not exist in route table:")
  | some upStreamUrl => Except.ok upStreamUrl

/-- The action a reverse-proxy request ends in: a 404 `http.Error` with the
diagnostic message, a CONNECT tunnel or WebSocket relay dialling the request
host, or the HTTP reverse-proxy forward carrying the outgoing (directed)
request. -/
inductive RPAction where
  | notFound (msg : Str)
  | connectTunnel (hostPort : Str)
  | websocketRelay (hostPort : Str)
  | httpForward (upstreamURL : Str) (outgoing : Request)
deriving DecidableEq

/-- `reverse_proxy.(*JinxReverseProxyServer).ServeHTTP`: resolve the route
(404 on a miss), then dispatch on CONNECT, the WebSocket upgrade headers, or
plain HTTP forwarding. -/
def reverseProxyServeHTTP (config : JinxReverseProxyServerConfig) (r : Request) :
    RPAction :=
  match DetermineUpstreamURL config r with
  | Except.error msg => RPAction.notFound msg
  | Except.ok upstreamURL =>
    if r.Method == strOf "CONNECT" then RPAction.connectTunnel r.Host
    else
      let upgradeHeader := toLowerStr r.UpgradeHeader
      let connectionHeader := toLowerStr r.ConnectionHeader
      if upgradeHeader == strOf "websocket" && containsSub connectionHeader (strOf "upgrade")
      then RPAction.websocketRelay r.Host
      else RPAction.httpForward upstreamURL (Director upstreamURL r)

/-- `forward_proxy.ValidateUpstreamURL`: strip the port from the request host
and test it against the blacklist; a member yields the diagnostic error. -/
def ValidateUpstreamURL (config : JinxForwardProxyServerConfig) (r : Request) :
    Option Str :=
  let reqHost := stripPort r.Host
  if InList config.BlackList reqHost then some (reqHost ++ strOf " has been blacklisted")
  else none

/-- The action a forward-proxy request ends in: a 403 `http.Error`, a CONNECT
tunnel or WebSocket relay dialling the request host, or the HTTP forward with
the unmodified request (the forward proxy's Director is the identity). -/
inductive FPAction where
  | forbidden (msg : Str)
  | connectTunnel (hostPort : Str)
  | websocketRelay (hostPort : Str)
  | httpForward (outgoing : Request)
deriving DecidableEq

/-- `forward_proxy.(*JinxForwardProxyServer).ServeHTTP`: blacklist check first
(403 on a member), then the CONNECT / WebSocket / HTTP-forward trichotomy. -/
def forwardProxyServeHTTP (config : JinxForwardProxyServerConfig) (r : Request) :
    FPAction :=
  match ValidateUpstreamURL config r with
  | some msg => FPAction.forbidden msg
  | none =>
    if r.Method == strOf "CONNECT" then FPAction.connectTunnel r.Host
    else
      let upgradeHeader := toLowerStr r.UpgradeHeader
      let connectionHeader := toLowerStr r.ConnectionHeader
      if upgradeHeader == strOf "websocket" && containsSub connectionHeader (strOf "upgrade")
      then FPAction.websocketRelay r.Host
      else FPAction.httpForward r

/-- Two's-complement wrap-around of Go's 64-bit `int` (Go's `int` is 64 bits
on the platforms Jinx targets): the representative of `x` in
`[-2^63, 2^63)`.  Arithmetic on in-range operands is wrapped only at the
result, which is exactly Go's machine addition. -/
def wrapInt64 (x : Int) : Int := (x + 2 ^ 63) % 2 ^ 64 - 2 ^ 63

/-- `algo.RoundRobin`.  The Go function computes
`nextServerIndex := (currentServer + 1) % len(servers)`, where the addition is
64-bit machine addition (it wraps at `MaxInt64`) and `%` is Go's truncated
(`tmod`) integer remainder, and returns `servers[nextServerIndex]`; it does
not write the cursor.  `none` models a runtime panic: the remainder of a
division by zero when the pool is empty, or an index out of range when the
computed index is negative.  The mutex is irrelevant to the pure value and
omitted. -/
def RoundRobin (servers : List UpStreamServer) (currentServer : Int) :
    Option UpStreamServer :=
  if servers.length = 0 then none
  else
    let nextServerIndex : Int :=
      (wrapInt64 (currentServer + 1)).tmod (servers.length : Int)
    if h : 0 ≤ nextServerIndex ∧ nextServerIndex < (servers.length : Int) then
      some (servers.get ⟨nextServerIndex.toNat, by omega⟩)
    else none

/-- `load_balancer.JinxLoadBalancingServer`: the fields the claims touch.  The
constructor sets `serverInstance` to nil and the cursor to `-1`;
`serverInstance : Option Unit` stands for the nullable `*http.Server` field. -/
structure JinxLoadBalancingServer where
  config : JinxLoadBalancingServerConfig
  serverRootDir : Str
  serverInstance : Option Unit
  currentServer : Int
deriving DecidableEq

/-- `load_balancer.NewJinxLoadBalancingServer` (state fields only). -/
def NewJinxLoadBalancingServer (config : JinxLoadBalancingServerConfig)
    (serverRoot : Str) : JinxLoadBalancingServer :=
  { config := config, serverRootDir := serverRoot, serverInstance := none,
    currentServer := -1 }

/-- The state effect of `load_balancer.(*JinxLoadBalancingServer).Start` on the
server struct: Start builds a local `net.Listener` and launches the accept
loop, and assigns no field of the struct — in particular it never assigns
`serverInstance`. -/
def JinxLoadBalancingServer.Start (jx : JinxLoadBalancingServer) :
    JinxLoadBalancingServer :=
  jx

/-- One upstream selection of `load_balancer.(*JinxLoadBalancingServer).ProxyTCP`
under the round-robin algorithm: it calls
`jx.PickAlgorithm()(jx.config.ServerPool, jx.currentServer, jx.mutex)` and
never writes `jx.currentServer`, so the resulting server state is unchanged. -/
def ProxyTCPSelect (jx : JinxLoadBalancingServer) :
    Option UpStreamServer × JinxLoadBalancingServer :=
  (RoundRobin jx.config.ServerPool jx.currentServer, jx)

/-- The picks of `k` successive `ProxyTCP` invocations, threading the server
state. -/
def lbSelections : JinxLoadBalancingServer → Nat → List (Option UpStreamServer)
  | _, 0 => []
  | jx, k + 1 => (ProxyTCPSelect jx).1 :: lbSelections (ProxyTCPSelect jx).2 k

/-- An observable lifecycle effect: the graceful `Shutdown` call of `Stop`, or
the `os.RemoveAll` of `Destroy`. -/
inductive LifecycleEffect where
  | shutdownServer
  | removeAll (dir : Str)
deriving DecidableEq

/-- Effects of `load_balancer.(*JinxLoadBalancingServer).Stop`: nothing when
`serverInstance` is nil, otherwise the graceful shutdown. -/
def JinxLoadBalancingServer.StopEffects (jx : JinxLoadBalancingServer) :
    List LifecycleEffect :=
  match jx.serverInstance with
  | none => []
  | some _ => [LifecycleEffect.shutdownServer]

/-- Effects of `load_balancer.(*JinxLoadBalancingServer).Destroy`: nothing when
`serverInstance` is nil, otherwise Stop followed by `os.RemoveAll` of the
server root directory. -/
def JinxLoadBalancingServer.DestroyEffects (jx : JinxLoadBalancingServer) :
    List LifecycleEffect :=
  match jx.serverInstance with
  | none => []
  | some _ => jx.StopEffects ++ [LifecycleEffect.removeAll jx.serverRootDir]

/-- `forward_proxy.JinxForwardProxyServer`: the fields the claims touch. -/
structure JinxForwardProxyServer where
  config : JinxForwardProxyServerConfig
  serverRootDir : Str
  serverInstance : Option Unit
deriving DecidableEq

/-- `forward_proxy.NewJinxForwardProxyServer` (state fields only). -/
def NewJinxForwardProxyServer (config : JinxForwardProxyServerConfig)
    (serverRoot : Str) : JinxForwardProxyServer :=
  { config := config, serverRootDir := serverRoot, serverInstance := none }

/-- The state effect of `forward_proxy.(*JinxForwardProxyServer).Start` on the
server struct: it builds the `http.Server` and assigns it,
`jx.serverInstance = s`. -/
def JinxForwardProxyServer.Start (jx : JinxForwardProxyServer) :
    JinxForwardProxyServer :=
  { jx with serverInstance := some () }

/-- Effects of `forward_proxy.(*JinxForwardProxyServer).Stop`. -/
def JinxForwardProxyServer.StopEffects (jx : JinxForwardProxyServer) :
    List LifecycleEffect :=
  match jx.serverInstance with
  | none => []
  | some _ => [LifecycleEffect.shutdownServer]

/-- Effects of `forward_proxy.(*JinxForwardProxyServer).Destroy`: nothing when
`serverInstance` is nil, otherwise Stop followed by `os.RemoveAll`. -/
def JinxForwardProxyServer.DestroyEffects (jx : JinxForwardProxyServer) :
    List LifecycleEffect :=
  match jx.serverInstance with
  | none => []
  | some _ => jx.StopEffects ++ [LifecycleEffect.removeAll jx.serverRootDir]

/-- An observable effect of a `Start` method: a log line, `log.Fatal`
(terminating the process), blocking in `ListenAndServe` serving requests, or
the load balancer's accept-loop goroutine starting. -/
inductive StartEffect where
  | logError (msg : Str)
  | logInfo (msg : Str)
  | fatalExit
  | serveRequests
  | enterAcceptLoop
deriving DecidableEq

/-- Effects of the plaintext branch of
`forward_proxy.(*JinxForwardProxyServer).Start` as a function of the error
`ListenAndServe` returns (`none` = it serves; `some e` = bind failure, which is
not `http.ErrServerClosed`): log, then on failure log the error and
`log.Fatal`. -/
def forwardProxyStartEffects (addr : Str) (bindError : Option Str) :
    List StartEffect :=
  match bindError with
  | none =>
    [StartEffect.logInfo (strOf "Starting Jinx Forward Proxy Sever on " ++ addr
       ++ strOf " using HTTP Protocol"),
     StartEffect.serveRequests]
  | some e =>
    [StartEffect.logInfo (strOf "Starting Jinx Forward Proxy Sever on " ++ addr
       ++ strOf " using HTTP Protocol"),
     StartEffect.logError (strOf "Failed to start server: " ++ e),
     StartEffect.fatalExit]

/-- Effects of the plaintext branch of
`reverse_proxy.(*JinxReverseProxyServer).Start`. -/
def reverseProxyStartEffects (addr : Str) (bindError : Option Str) :
    List StartEffect :=
  match bindError with
  | none =>
    [StartEffect.logInfo (strOf "Starting Jinx Reverse Proxy Sever on " ++ addr
       ++ strOf " using HTTP Protocol"),
     StartEffect.serveRequests]
  | some e =>
    [StartEffect.logInfo (strOf "Starting Jinx Reverse Proxy Sever on " ++ addr
       ++ strOf " using HTTP Protocol"),
     StartEffect.logError (strOf "Failed to start server: " ++ e),
     StartEffect.fatalExit]

/-- Effects of the plaintext branch of `jinx_http.(*JinxHttpServer).Start`. -/
def jinxHttpStartEffects (addr : Str) (bindError : Option Str) :
    List StartEffect :=
  match bindError with
  | none =>
    [StartEffect.logInfo (strOf "Starting Jinx on " ++ addr),
     StartEffect.serveRequests]
  | some e =>
    [StartEffect.logInfo (strOf "Starting Jinx on " ++ addr),
     StartEffect.logError (strOf "Failed to start server: " ++ e),
     StartEffect.fatalExit]

/-- Effects of `load_balancer.(*JinxLoadBalancingServer).Start` as a function
of the TLS mode and the error `net.Listen`/`tls.Listen` returns: a bind
failure is logged with the error logger, and execution continues into the
accept-loop goroutine (its body is guarded by `listener != nil`); there is no
`log.Fatal` and no process exit on this path. -/
def loadBalancerStartEffects (tlsMode : Bool) (bindError : Option Str) :
    List StartEffect :=
  match bindError with
  | none => [StartEffect.enterAcceptLoop]
  | some e =>
    [StartEffect.logError
       ((if tlsMode then strOf "error starting https load balancer: "
         else strOf "error starting http load balancer: ") ++ e),
     StartEffect.enterAcceptLoop]

/-- The filesystem surface `jinx_http` touches, as pure predicates: the result
of `helper.IsDirReadable`, the success of `os.Stat`, `FileInfo.IsDir`, and the
content `os.ReadFile` returns. -/
structure FileSystem where
  dirReadable : Str → Bool
  statExists : Str → Bool
  statIsDir : Str → Bool
  readFile : Str → Option Str

/-- `helper.IsLocalhostOrIP`, parameterised by a predicate `isLoopback`
standing for the standard library test
`net.ParseIP(host) != nil && ip.IsLoopback()`. -/
def IsLocalhostOrIP (isLoopback : Str → Bool) (host : Str) : Bool :=
  if host == strOf "localhost" then true
  else isLoopback host

/-- Model of Go `path/filepath.Join` on a Unix host: drop leading empty
elements, join the rest with the separator, and `Clean` the result; all empty
yields the empty path. -/
def filepathJoin (elems : List Str) : Str :=
  match elems.dropWhile (fun e => e = []) with
  | [] => []
  | es => cleanPath (joinSlash es)

/-- The document-root selection inside `jinx_http.resolveFilePath`, returned
as the pair (root directory, host directory) it joins file paths under:
`(serverRootDir, "www")` for a localhost or loopback host, or when
`websiteRoot/host` is not readable; `(websiteRoot, host)` otherwise. -/
def resolveRootHost (isLoopback : Str → Bool) (fs : FileSystem)
    (websiteRoot serverRootDir host : Str) : Str × Str :=
  if IsLocalhostOrIP isLoopback host then (serverRootDir, strOf "www")
  else if !(fs.dirReadable (filepathJoin [websiteRoot, host])) then
    (serverRootDir, strOf "www")
  else (websiteRoot, host)

/-- `jinx_http.(*JinxHttpServer).resolveFilePath`: strip the port from the
request host, clean the URL path, pick the document root (default site under
the server root directory for loopback hosts or unreadable host directories),
then serve `index.html` for the root path, the file itself when it is an
existing regular file, and otherwise return the `404.html` path together with
the not-found error. -/
def resolveFilePath (isLoopback : Str → Bool) (fs : FileSystem)
    (config : JinxHttpServerConfig) (serverRootDir : Str) (r : Request) :
    Str × Option Str :=
  let host0 := stripPort r.Host
  let urlPath := cleanPath r.URL.Path
  let rh := resolveRootHost isLoopback fs config.WebsiteRoot serverRootDir host0
  let root := rh.1
  let host := rh.2
  let file := filepathJoin [root, host, urlPath]
  if urlPath = [] ∨ urlPath = ['/'] then
    (filepathJoin [file, strOf "index.html"], none)
  else if !(fs.statExists file) || fs.statIsDir file then
    (filepathJoin [root, host, strOf "404.html"],
     some (strOf "file not found: " ++ file))
  else (file, none)

/-- One observable response event: `Header().Set`, `WriteHeader`, `Write`, or
the `http.ServeFile` call (the standard static file serving, which emits
status, content headers and body itself). -/
inductive HttpEvent where
  | setHeader (key value : Str)
  | writeHeader (status : Int)
  | write (body : Str)
  | serveFileContent (path : Str)
deriving DecidableEq

/-- Model of `net/http.Error`: set the plain-text content type headers, write
the status, and print the message followed by a newline. -/
def httpError (msg : Str) (status : Int) : List HttpEvent :=
  [HttpEvent.setHeader (strOf "Content-Type") (strOf "text/plain; charset=utf-8"),
   HttpEvent.setHeader (strOf "X-Content-Type-Options") (strOf "nosniff"),
   HttpEvent.writeHeader status,
   HttpEvent.write (msg ++ strOf "\n")]

/-- `jinx_http.(*JinxHttpServer).serveFile`: set `Cache-Control: max-age=3600`
and `Server: Jinx` (`constant.SOFTWARE_NAME`), then hand off to
`http.ServeFile`. -/
def serveFile (filePath : Str) : List HttpEvent :=
  [HttpEvent.setHeader (strOf "Cache-Control") (strOf "max-age=3600"),
   HttpEvent.setHeader (strOf "Server") (strOf "Jinx"),
   HttpEvent.serveFileContent filePath]

/-- `jinx_http.(*JinxHttpServer).serve404`: read the 404 document; on a read
failure fall back to `http.Error "404 Not Found"`; otherwise write status 404
and the document body (and on a write failure additionally `http.Error 500`).
No `Cache-Control` or `Server` header is set on this path. -/
def serve404 (fs : FileSystem) (writeFails : Bool) (filePath : Str) :
    List HttpEvent :=
  match fs.readFile filePath with
  | none => httpError (strOf "404 Not Found") 404
  | some content =>
    [HttpEvent.writeHeader 404, HttpEvent.write content] ++
      (if writeFails then httpError (strOf "Internal Server Error") 500 else [])

/-- `jinx_http.(*JinxHttpServer).ServeHTTP`: resolve the file path; on an
error serve the 404 page at the returned path, otherwise serve the file. -/
def jinxHttpServeHTTP (isLoopback : Str → Bool) (fs : FileSystem)
    (config : JinxHttpServerConfig) (serverRootDir : Str) (writeFails : Bool)
    (r : Request) : List HttpEvent :=
  match resolveFilePath isLoopback fs config serverRootDir r with
  | (filePath, some _) => serve404 fs writeFails filePath
  | (filePath, none) => serveFile filePath

/-- The document-root choice exactly as the specification words it, for
comparison with the choice `resolveFilePath` makes: a localhost or loopback
host gets the default-site tree under the working directory; otherwise
`websiteRoot/host` when that directory is readable; otherwise the default-site
tree. -/
def specEffectiveDocRoot (isLoopback : Str → Bool) (fs : FileSystem)
    (websiteRoot workingDir host : Str) : Str × Str :=
  if host == strOf "localhost" || isLoopback host then (workingDir, strOf "www")
  else if fs.dirReadable (filepathJoin [websiteRoot, host]) then (websiteRoot, host)
  else (workingDir, strOf "www")

/-- The serving decision of `resolveFilePath` under a given document-root
pair; context for stating that the code's choice of root matches the
specification's. -/
def resolveFileUnder (fs : FileSystem) (rh : Str × Str) (urlPath : Str) :
    Str × Option Str :=
  let file := filepathJoin [rh.1, rh.2, urlPath]
  if urlPath = [] ∨ urlPath = ['/'] then
    (filepathJoin [file, strOf "index.html"], none)
  else if !(fs.statExists file) || fs.statIsDir file then
    (filepathJoin [rh.1, rh.2, strOf "404.html"],
     some (strOf "file not found: " ++ file))
  else (file, none)

/-- Concrete upstream A used in the load-balancer scenarios. -/
def srvA : UpStreamServer :=
  { IP := strOf "10.0.0.1", Port := 8081, Weight := 1, Location := strOf "us-east" }

/-- Concrete upstream B used in the load-balancer scenarios. -/
def srvB : UpStreamServer :=
  { IP := strOf "10.0.0.2", Port := 8082, Weight := 1, Location := strOf "us-west" }

/-- Concrete upstream C, for a three-element pool. -/
def srvC : UpStreamServer :=
  { IP := strOf "10.0.0.3", Port := 8083, Weight := 1, Location := strOf "eu-west" }

/-- A two-upstream load-balancer configuration. -/
def lbConfigAB : JinxLoadBalancingServerConfig :=
  { IP := strOf "0.0.0.0", Port := 9000, LogRoot := strOf "/jinx/load_balancer/logs",
    CertFile := [], KeyFile := [], ServerPool := [srvA, srvB] }

/-- The load balancer freshly constructed over `lbConfigAB`. -/
def lbServerAB : JinxLoadBalancingServer :=
  NewJinxLoadBalancingServer lbConfigAB (strOf "/jinx/load_balancer")

/-- An empty-blacklist forward-proxy configuration for the lifecycle
scenario. -/
def c4FpConfig : JinxForwardProxyServerConfig :=
  { IP := strOf "0.0.0.0", Port := 8080, LogRoot := strOf "/jinx/forward_proxy/logs",
    BlackList := [], CertFile := [], KeyFile := [] }

/-- Reverse-proxy configuration of the path-join scenario: route table
maps "/api" to "http://u/v1/". -/
def c2Config : JinxReverseProxyServerConfig :=
  { IP := strOf "0.0.0.0", Port := 8080, LogRoot := [],
    RouteTable := [(strOf "/api", strOf "http://u/v1/")],
    CertFile := [], KeyFile := [] }

/-- The request `GET /api/users?id=5` of the path-join scenario. -/
def c2Request : Request :=
  { Method := strOf "GET", Host := strOf "proxy.local",
    URL := { Scheme := strOf "http", Host := [], Path := strOf "/api/users",
             RawQuery := strOf "id=5" },
    UpgradeHeader := [], ConnectionHeader := [] }

/-- The same request with path exactly `/api` (the cleaned path that is a
route-table key). -/
def c2RequestApi : Request :=
  { c2Request with URL := { c2Request.URL with Path := strOf "/api" } }

/-- A loopback predicate recognising only the literal `127.0.0.1`; a concrete
instance of the abstract `net.ParseIP`/`IsLoopback` parameter. -/
def loopback127 : Str → Bool := fun h => h == strOf "127.0.0.1"

/-- A filesystem on which every host directory is unreadable, no file exists,
and only the default site's `404.html` has content. -/
def c3Fs : FileSystem :=
  { dirReadable := fun _ => false
    statExists := fun _ => false
    statIsDir := fun _ => false
    readFile := fun p =>
      if p == strOf "/jinx/http/www/404.html" then some (strOf "custom 404 page")
      else none }

/-- HTTP origin configuration of the header scenario. -/
def c3Config : JinxHttpServerConfig :=
  { IP := strOf "0.0.0.0", Port := 80, LogRoot := [],
    WebsiteRoot := strOf "/web", CertFile := [], KeyFile := [] }

/-- The request `GET /missing.html` for host `example.com`. -/
def c3Request : Request :=
  { Method := strOf "GET", Host := strOf "example.com",
    URL := { Scheme := [], Host := [], Path := strOf "/missing.html", RawQuery := [] },
    UpgradeHeader := [], ConnectionHeader := [] }

/-- Reverse-proxy configuration of the route-miss scenario: route table maps
"/a" to "http://u/". -/
def c6Config : JinxReverseProxyServerConfig :=
  { IP := strOf "0.0.0.0", Port := 8080, LogRoot := [],
    RouteTable := [(strOf "/a", strOf "http://u/")],
    CertFile := [], KeyFile := [] }

/-- The request `GET /b`, whose cleaned path is not a route-table key. -/
def c6MissRequest : Request :=
  { Method := strOf "GET", Host := strOf "proxy.local",
    URL := { Scheme := strOf "http", Host := [], Path := strOf "/b", RawQuery := [] },
    UpgradeHeader := [], ConnectionHeader := [] }

/-- The request `GET /a`, whose cleaned path is a route-table key. -/
def c6HitRequest : Request :=
  { Method := strOf "GET", Host := strOf "proxy.local",
    URL := { Scheme := strOf "http", Host := [], Path := strOf "/a", RawQuery := [] },
    UpgradeHeader := [], ConnectionHeader := [] }

/-- Forward-proxy configuration whose blacklist holds `bad.example`. -/
def c7Config : JinxForwardProxyServerConfig :=
  { IP := strOf "0.0.0.0", Port := 8080, LogRoot := [],
    BlackList := [strOf "bad.example"], CertFile := [], KeyFile := [] }

/-- A CONNECT request for the blacklisted host `bad.example:443`. -/
def c7BadRequest : Request :=
  { Method := strOf "CONNECT", Host := strOf "bad.example:443",
    URL := { Scheme := [], Host := [], Path := [], RawQuery := [] },
    UpgradeHeader := [], ConnectionHeader := [] }

/-- A CONNECT request for a host not on the blacklist. -/
def c7GoodRequest : Request :=
  { Method := strOf "CONNECT", Host := strOf "good.example:443",
    URL := { Scheme := [], Host := [], Path := [], RawQuery := [] },
    UpgradeHeader := [], ConnectionHeader := [] }

/-- A list whose last element is `c` is its `dropLast` with `c` appended. -/
theorem eq_dropLast_append {b : Str} {c : Char} (h : b.getLast? = some c) :
    b = b.dropLast ++ [c] := by
  have hne : b ≠ [] := by intro hb; rw [hb] at h; simp at h
  have h2 := List.getLast?_eq_getLast b hne
  rw [h2] at h
  have h3 : b.getLast hne = c := by injection h
  rw [← h3]
  exact (List.dropLast_append_getLast hne).symm

/-- A list whose head is `c` is `c` consed onto its tail. -/
theorem eq_cons_head {p : Str} {c : Char} (h : p.head? = some c) :
    p = c :: p.tail := by
  exact (List.cons_head?_tail (by rw [h]; rfl)).symm

/-- Go's truncated remainder of a non-positive integer is non-positive. -/
theorem tmod_nonpos_of_nonpos {m n : Int} (hm : m ≤ 0) : m.tmod n ≤ 0 := by
  have hneg : (-m).tmod n = -(m.tmod n) := by
    rw [Int.tmod_def, Int.tmod_def, Int.neg_tdiv]; ring
  have hge := Int.tmod_nonneg n (show (0 : Int) ≤ -m by omega)
  omega

/-- `wrapInt64` is the identity on values already in the 64-bit range. -/
theorem wrapInt64_eq_self {x : Int} (h1 : -(2 ^ 63) ≤ x) (h2 : x < 2 ^ 63) :
    wrapInt64 x = x := by
  unfold wrapInt64; omega

/-- When the wrapped cursor increment is non-positive, `RoundRobin` on a
non-empty pool panics exactly when the pool length does not divide it (Go's
truncated remainder of a non-positive dividend is negative unless it is
zero). -/
theorem roundRobin_none_iff_of_nonpos {servers : List UpStreamServer} {c : Int}
    (hne : servers ≠ []) (hm : wrapInt64 (c + 1) ≤ 0) :
    RoundRobin servers c = none ↔
      ¬ ((servers.length : Int) ∣ wrapInt64 (c + 1)) := by
  have hn : 0 < servers.length := List.length_pos.mpr hne
  constructor
  · intro hnone hdvd
    have h0 : (wrapInt64 (c + 1)).tmod (servers.length : Int) = 0 :=
      Int.tmod_eq_zero_of_dvd hdvd
    unfold RoundRobin at hnone
    rw [if_neg (by omega)] at hnone
    rw [dif_pos ⟨by omega, by omega⟩] at hnone
    exact Option.some_ne_none _ hnone
  · intro hndvd
    have hne0 : (wrapInt64 (c + 1)).tmod (servers.length : Int) ≠ 0 := fun h =>
      hndvd (Int.dvd_of_tmod_eq_zero h)
    have hle : (wrapInt64 (c + 1)).tmod (servers.length : Int) ≤ 0 :=
      tmod_nonpos_of_nonpos hm
    unfold RoundRobin
    rw [if_neg (by omega), dif_neg (by omega)]

/-- `SingleJoiningSlash` always yields the base stripped of at most one
trailing slash, one separator, and the path stripped of at most one leading
slash. -/
theorem singleJoiningSlash_normal_form :
    ∀ b p : Str, SingleJoiningSlash b p =
      dropOneTrailingSlash b ++ '/' :: dropOneLeadingSlash p := by
  intro b p
  unfold SingleJoiningSlash dropOneTrailingSlash dropOneLeadingSlash
  by_cases hb : b.getLast? = some '/' <;> by_cases hp : p.head? = some '/' <;>
    simp [hb, hp]
  · conv_lhs => rw [eq_dropLast_append hb]
    simp
  · conv_lhs => rw [eq_dropLast_append hb]
    simp
  · conv_lhs => rw [eq_cons_head hp]

/-- When exactly one boundary slash is present, `SingleJoiningSlash` is plain
concatenation. -/
theorem singleJoiningSlash_lined_up :
    ∀ b p : Str, (b.getLast? == some '/') ≠ (p.head? == some '/') →
      SingleJoiningSlash b p = b ++ p := by
  intro b p h
  unfold SingleJoiningSlash
  cases hb : b.getLast? == some '/' <;> cases hp : p.head? == some '/' <;>
    simp_all

/-- Claim C1: the cursor of the round-robin selection never advances.
`algo.RoundRobin` returns `servers[(currentServer+1) % len(servers)]` but
writes no cursor, and `ProxyTCP` passes `jx.currentServer` by value and never
assigns it, so with pool `[srvA, srvB]` and the constructor's initial cursor
`-1`, two successive selections both pick `srvA` — contradicting the claimed
multiset `{pool[0], pool[1]}` in which, for `k = n = 2`, each upstream is
chosen exactly once (`srvA` and `srvB` are distinct). -/
theorem roundRobin_cursor_never_advances :
    lbSelections lbServerAB 2 = [some srvA, some srvA] ∧
    (srvA == srvB) = false ∧
    (ProxyTCPSelect lbServerAB).2 = lbServerAB := by
  decide

/-- Claim C2 (counterexample): with route table mapping "/api" to
"http://u/v1/", the request `GET /api/users?id=5` is not forwarded at all —
route lookup is an exact match on the cleaned path, so the engine answers 404
with the route-miss diagnostic; moreover even the Director applied to this
request would produce path "/v1/api/users", not "/v1/users". -/
theorem pathJoin_scenario_counterexample :
    reverseProxyServeHTTP c2Config c2Request =
      RPAction.notFound (strOf "/api/users does not exist in route table:") ∧
    (Director (strOf "http://u/v1/") c2Request).URL.Path = strOf "/v1/api/users" ∧
    (strOf "/v1/api/users" == strOf "/v1/users") = false := by
  decide

/-- Claim C2 (amended): the request `GET /api/users?id=5` receives a 404
route-miss response; a request whose cleaned path is exactly "/api" is
forwarded to the mapped upstream with Host `u`, scheme `http`, the query
`id=5` unchanged, and path `SingleJoiningSlash("/v1/", "/api") = "/v1/api"`
(the route prefix is not stripped from the forwarded path). -/
theorem pathJoin_scenario_amended :
    reverseProxyServeHTTP c2Config c2Request =
      RPAction.notFound (strOf "/api/users does not exist in route table:") ∧
    reverseProxyServeHTTP c2Config c2RequestApi =
      RPAction.httpForward (strOf "http://u/v1/")
        (Director (strOf "http://u/v1/") c2RequestApi) ∧
    (Director (strOf "http://u/v1/") c2RequestApi).Host = strOf "u" ∧
    (Director (strOf "http://u/v1/") c2RequestApi).URL.Scheme = strOf "http" ∧
    (Director (strOf "http://u/v1/") c2RequestApi).URL.Path = strOf "/v1/api" ∧
    (Director (strOf "http://u/v1/") c2RequestApi).URL.RawQuery = strOf "id=5" := by
  decide

/-- Claim C3 (counterexample): a request that misses (host directory
unreadable, file absent) is served by `serve404` from the default site's
404 document, and the response events contain neither
`Cache-Control: max-age=3600` nor `Server: Jinx`. -/
theorem response_headers_counterexample :
    jinxHttpServeHTTP (fun _ => false) c3Fs c3Config (strOf "/jinx/http") false
        c3Request =
      [HttpEvent.writeHeader 404, HttpEvent.write (strOf "custom 404 page")] ∧
    ((jinxHttpServeHTTP (fun _ => false) c3Fs c3Config (strOf "/jinx/http") false
        c3Request).contains
      (HttpEvent.setHeader (strOf "Cache-Control") (strOf "max-age=3600"))) = false ∧
    ((jinxHttpServeHTTP (fun _ => false) c3Fs c3Config (strOf "/jinx/http") false
        c3Request).contains
      (HttpEvent.setHeader (strOf "Server") (strOf "Jinx"))) = false := by
  decide

/-- Claim C3 (amended): `serveFile` sets `Cache-Control: max-age=3600` and
`Server: Jinx` before handing content to `http.ServeFile`; 404 responses,
served through `serve404` (custom document or plain-text fallback), set
neither header; and every response the engine writes goes through exactly one
of the two. -/
theorem response_headers_amended :
    (∀ fp : Str, serveFile fp =
       HttpEvent.setHeader (strOf "Cache-Control") (strOf "max-age=3600") ::
       HttpEvent.setHeader (strOf "Server") (strOf "Jinx") ::
       [HttpEvent.serveFileContent fp]) ∧
    (∀ (fs : FileSystem) (w : Bool) (fp : Str),
       HttpEvent.setHeader (strOf "Cache-Control") (strOf "max-age=3600") ∉
         serve404 fs w fp ∧
       HttpEvent.setHeader (strOf "Server") (strOf "Jinx") ∉ serve404 fs w fp) ∧
    (∀ (il : Str → Bool) (fs : FileSystem) (config : JinxHttpServerConfig)
       (wd : Str) (w : Bool) (r : Request),
       jinxHttpServeHTTP il fs config wd w r =
         serveFile (resolveFilePath il fs config wd r).1 ∨
       jinxHttpServeHTTP il fs config wd w r =
         serve404 fs w (resolveFilePath il fs config wd r).1) := by
  refine ⟨fun fp => rfl, ?_, ?_⟩
  · intro fs w fp
    cases h : fs.readFile fp <;> cases w <;>
      simp [serve404, httpError, h] <;> decide
  · intro il fs config wd w r
    rcases h : resolveFilePath il fs config wd r with ⟨fp, e⟩
    cases e <;> simp [jinxHttpServeHTTP, h]

/-- Claim C3 (witness): the amended statement at a concrete file path and the
concrete 404 filesystem. -/
theorem response_headers_amended_witness :
    serveFile (strOf "/jinx/http/www/index.html") =
      HttpEvent.setHeader (strOf "Cache-Control") (strOf "max-age=3600") ::
      HttpEvent.setHeader (strOf "Server") (strOf "Jinx") ::
      [HttpEvent.serveFileContent (strOf "/jinx/http/www/index.html")] ∧
    HttpEvent.setHeader (strOf "Cache-Control") (strOf "max-age=3600") ∉
      serve404 c3Fs false (strOf "/jinx/http/www/404.html") :=
  ⟨response_headers_amended.1 (strOf "/jinx/http/www/index.html"),
   (response_headers_amended.2.1 c3Fs false (strOf "/jinx/http/www/404.html")).1⟩

/-- Claim C4: `Destroy` evaluated on each engine.  The load balancer's `Start`
never assigns `serverInstance`, so `Destroy` after a successful `Start`
performs no effect at all — the working directory survives; the forward
proxy's `Start` does assign it, so its `Destroy` shuts down and removes the
working directory, and `Destroy` without `Start` is a no-op on both. -/
theorem destroy_after_start_eval :
    ((NewJinxLoadBalancingServer lbConfigAB (strOf "/jinx/load_balancer")).Start).DestroyEffects = [] ∧
    ((NewJinxForwardProxyServer c4FpConfig (strOf "/jinx/forward_proxy")).Start).DestroyEffects =
      [LifecycleEffect.shutdownServer,
       LifecycleEffect.removeAll (strOf "/jinx/forward_proxy")] ∧
    (NewJinxForwardProxyServer c4FpConfig (strOf "/jinx/forward_proxy")).DestroyEffects = [] ∧
    (NewJinxLoadBalancingServer lbConfigAB (strOf "/jinx/load_balancer")).DestroyEffects = [] := by
  decide

/-- Claim C5: for every request, `resolveFilePath` factors through exactly the
document-root choice the specification states: the default-site tree under the
server working directory for "localhost" or a loopback host, otherwise
`websiteRoot/host` when that directory is readable, otherwise the default-site
tree. -/
theorem document_root_choice :
    ∀ (isLoopback : Str → Bool) (fs : FileSystem)
      (config : JinxHttpServerConfig) (serverRootDir : Str) (r : Request),
    resolveFilePath isLoopback fs config serverRootDir r =
      resolveFileUnder fs
        (specEffectiveDocRoot isLoopback fs config.WebsiteRoot serverRootDir
          (stripPort r.Host))
        (cleanPath r.URL.Path) := by
  intro il fs config wd r
  have hroot : resolveRootHost il fs config.WebsiteRoot wd (stripPort r.Host) =
      specEffectiveDocRoot il fs config.WebsiteRoot wd (stripPort r.Host) := by
    unfold resolveRootHost specEffectiveDocRoot IsLocalhostOrIP
    cases hl : stripPort r.Host == strOf "localhost" <;>
      cases hb : il (stripPort r.Host) <;>
        cases hr : fs.dirReadable (filepathJoin [config.WebsiteRoot, stripPort r.Host]) <;>
          simp [hl, hb, hr]
  simp only [resolveFilePath, resolveFileUnder, hroot]

/-- Claim C6: a request whose cleaned path is not a route-table key is
answered with the 404 route-miss diagnostic (whose message extends
"(path) does not exist in route table") and no forwarding action; a request
whose cleaned path is a key is dispatched to one of the three forwarding
modes, the HTTP-forward mode carrying the mapped upstream URL. -/
theorem route_resolution_dispatch :
    ∀ (config : JinxReverseProxyServerConfig) (r : Request),
    (lookupRoute config.RouteTable (cleanPath r.URL.Path) = none →
       reverseProxyServeHTTP config r =
         RPAction.notFound ((cleanPath r.URL.Path ++
           strOf " does not exist in route table") ++ strOf ":")) ∧
    (∀ u, lookupRoute config.RouteTable (cleanPath r.URL.Path) = some u →
       reverseProxyServeHTTP config r = RPAction.connectTunnel r.Host ∨
       reverseProxyServeHTTP config r = RPAction.websocketRelay r.Host ∨
       reverseProxyServeHTTP config r = RPAction.httpForward u (Director u r)) := by
  intro config r
  constructor
  · intro h
    simp only [reverseProxyServeHTTP, DetermineUpstreamURL, h]
    rw [List.append_assoc]
    rfl
  · intro u h
    simp only [reverseProxyServeHTTP, DetermineUpstreamURL, h]
    cases hm : r.Method == strOf "CONNECT"
    · cases hw : (toLowerStr r.UpgradeHeader == strOf "websocket" &&
        containsSub (toLowerStr r.ConnectionHeader) (strOf "upgrade"))
      · simp [hm, hw]
      · simp [hm, hw]
    · simp [hm]

/-- Claim C6 (witness): the dispatch theorem at the concrete route table
mapping "/a", the miss `GET /b` and the hit `GET /a`. -/
theorem route_resolution_dispatch_witness :
    (reverseProxyServeHTTP c6Config c6MissRequest =
       RPAction.notFound ((cleanPath c6MissRequest.URL.Path ++
         strOf " does not exist in route table") ++ strOf ":")) ∧
    (reverseProxyServeHTTP c6Config c6HitRequest =
       RPAction.connectTunnel c6HitRequest.Host ∨
     reverseProxyServeHTTP c6Config c6HitRequest =
       RPAction.websocketRelay c6HitRequest.Host ∨
     reverseProxyServeHTTP c6Config c6HitRequest =
       RPAction.httpForward (strOf "http://u/")
         (Director (strOf "http://u/") c6HitRequest)) :=
  ⟨(route_resolution_dispatch c6Config c6MissRequest).1 (by decide),
   (route_resolution_dispatch c6Config c6HitRequest).2 (strOf "http://u/") (by decide)⟩

/-- Claim C7: a request whose port-stripped host is on the blacklist is
answered with the 403 diagnostic and no forwarding; otherwise the request
proceeds to the CONNECT / WebSocket / HTTP-forward trichotomy. -/
theorem blacklist_gate :
    ∀ (config : JinxForwardProxyServerConfig) (r : Request),
    (InList config.BlackList (stripPort r.Host) = true →
       forwardProxyServeHTTP config r =
         FPAction.forbidden (stripPort r.Host ++ strOf " has been blacklisted")) ∧
    (InList config.BlackList (stripPort r.Host) = false →
       forwardProxyServeHTTP config r = FPAction.connectTunnel r.Host ∨
       forwardProxyServeHTTP config r = FPAction.websocketRelay r.Host ∨
       forwardProxyServeHTTP config r = FPAction.httpForward r) := by
  intro config r
  constructor
  · intro h
    simp only [forwardProxyServeHTTP, ValidateUpstreamURL, h, if_true]
  · intro h
    simp only [forwardProxyServeHTTP, ValidateUpstreamURL, h]
    cases hm : r.Method == strOf "CONNECT"
    · cases hw : (toLowerStr r.UpgradeHeader == strOf "websocket" &&
        containsSub (toLowerStr r.ConnectionHeader) (strOf "upgrade"))
      · simp [hm, hw]
      · simp [hm, hw]
    · simp [hm]

/-- Claim C7 (witness): the blacklist gate at the concrete blacklist
`bad.example`, the blocked CONNECT to `bad.example:443` and an allowed CONNECT
to `good.example:443`. -/
theorem blacklist_gate_witness :
    (forwardProxyServeHTTP c7Config c7BadRequest =
       FPAction.forbidden (stripPort c7BadRequest.Host ++
         strOf " has been blacklisted")) ∧
    (forwardProxyServeHTTP c7Config c7GoodRequest =
       FPAction.connectTunnel c7GoodRequest.Host ∨
     forwardProxyServeHTTP c7Config c7GoodRequest =
       FPAction.websocketRelay c7GoodRequest.Host ∨
     forwardProxyServeHTTP c7Config c7GoodRequest =
       FPAction.httpForward c7GoodRequest) :=
  ⟨(blacklist_gate c7Config c7BadRequest).1 (by decide),
   (blacklist_gate c7Config c7GoodRequest).2 (by decide)⟩

/-- Claim C8 (counterexample): for `B = "a//"` and `P = "/b"`,
`SingleJoiningSlash` yields `"a//b"`, and `"a//b"` admits no decomposition
`x ++ "/" ++ y` in which `x` does not end with a slash and `y` does not begin
with one — so no junction in the result carries exactly one slash: the
function drops at most one boundary slash. -/
theorem singleJoiningSlash_junction_counterexample :
    SingleJoiningSlash (strOf "a//") (strOf "/b") = strOf "a//b" ∧
    ¬ ∃ x y : Str, strOf "a//b" = x ++ '/' :: y ∧
        x.getLast? ≠ some '/' ∧ y.head? ≠ some '/' := by
  constructor
  · decide
  · rintro ⟨x, y, hxy, hx, hy⟩
    have hl : strOf "a//b" = ['a', '/', '/', 'b'] := rfl
    rw [hl] at hxy
    rcases x with _ | ⟨c1, _ | ⟨c2, _ | ⟨c3, _ | ⟨c4, t⟩⟩⟩⟩ <;> simp_all
    · exact hy (hxy.2 ▸ rfl)
    · exact hx hxy.2.1.symm

/-- Claim C8 (amended): `SingleJoiningSlash B P` equals `B` stripped of at
most one trailing slash, one separating slash, and `P` stripped of at most
one leading slash — so the junction carries exactly one slash whenever `B`
ends with at most one slash and `P` begins with at most one; it is plain
concatenation `B ++ P` when exactly one boundary slash is present; and both
arguments empty yield "/". -/
theorem singleJoiningSlash_amended :
    (∀ b p : Str, SingleJoiningSlash b p =
       dropOneTrailingSlash b ++ '/' :: dropOneLeadingSlash p) ∧
    (∀ b p : Str, (b.getLast? == some '/') ≠ (p.head? == some '/') →
       SingleJoiningSlash b p = b ++ p) ∧
    SingleJoiningSlash [] [] = ['/'] :=
  ⟨singleJoiningSlash_normal_form, singleJoiningSlash_lined_up, by decide⟩

/-- Claim C8 (witness): the lined-up case at "http://u" and "/x". -/
theorem singleJoiningSlash_amended_witness :
    SingleJoiningSlash (strOf "http://u") (strOf "/x") =
      strOf "http://u" ++ strOf "/x" :=
  singleJoiningSlash_amended.2.1 (strOf "http://u") (strOf "/x") (by decide)

/-- Claim C9 (counterexample): on a bind failure the load balancer's `Start`
logs the error but does not terminate the process — `log.Fatal` is absent from
its effects and execution continues into the accept loop. -/
theorem bind_failure_counterexample :
    StartEffect.logError (strOf "error starting http load balancer: " ++
        strOf "listen tcp: bind: address already in use") ∈
      loadBalancerStartEffects false
        (some (strOf "listen tcp: bind: address already in use")) ∧
    ((loadBalancerStartEffects false
        (some (strOf "listen tcp: bind: address already in use"))).contains
      StartEffect.fatalExit) = false := by
  decide

/-- Claim C9 (amended): on a bind failure the HTTP origin, reverse-proxy and
forward-proxy engines log the error and terminate via `log.Fatal`; the L4 load
balancer (plain or TLS listener) logs the error but does not terminate, and
proceeds into its accept loop. -/
theorem bind_failure_amended :
    ∀ (addr e : Str) (tls : Bool),
    (StartEffect.logError (strOf "Failed to start server: " ++ e) ∈
       forwardProxyStartEffects addr (some e) ∧
     StartEffect.fatalExit ∈ forwardProxyStartEffects addr (some e)) ∧
    (StartEffect.logError (strOf "Failed to start server: " ++ e) ∈
       reverseProxyStartEffects addr (some e) ∧
     StartEffect.fatalExit ∈ reverseProxyStartEffects addr (some e)) ∧
    (StartEffect.logError (strOf "Failed to start server: " ++ e) ∈
       jinxHttpStartEffects addr (some e) ∧
     StartEffect.fatalExit ∈ jinxHttpStartEffects addr (some e)) ∧
    (StartEffect.logError
       ((if tls then strOf "error starting https load balancer: "
         else strOf "error starting http load balancer: ") ++ e) ∈
       loadBalancerStartEffects tls (some e) ∧
     StartEffect.fatalExit ∉ loadBalancerStartEffects tls (some e) ∧
     StartEffect.enterAcceptLoop ∈ loadBalancerStartEffects tls (some e)) := by
  intro addr e tls
  cases tls <;>
    simp [forwardProxyStartEffects, reverseProxyStartEffects,
      jinxHttpStartEffects, loadBalancerStartEffects]

/-- Claim C9 (witness): the amended statement at a concrete address and bind
error. -/
theorem bind_failure_amended_witness :
    StartEffect.fatalExit ∈
      forwardProxyStartEffects (strOf "0.0.0.0:8080") (some (strOf "eaddr")) ∧
    StartEffect.fatalExit ∉
      loadBalancerStartEffects false (some (strOf "eaddr")) :=
  ⟨(bind_failure_amended (strOf "0.0.0.0:8080") (strOf "eaddr") false).1.2,
   (bind_failure_amended (strOf "0.0.0.0:8080") (strOf "eaddr") false).2.2.2.2.1⟩

/-- Claim C10 (counterexample): both directions of the claimed totality
boundary fail.  For the cursor `-3 < -1` and a pool of two upstreams, the
computed index `(-3+1) tmod 2 = 0` is not negative — the indexing does not go
out of bounds and `RoundRobin` returns the first pool element, so `c ≥ -1` is
not necessary.  And it is not sufficient either: at
`currentServer = MaxInt64 = 2^63 - 1` the Go increment wraps to `MinInt64`,
and on a three-element pool the truncated remainder is `-2`, so the indexing
panics although the pool is non-empty and `c ≥ -1`. -/
theorem roundRobin_total_counterexample :
    (RoundRobin [srvA, srvB] (-3) = some srvA ∧ (-3 : Int) < -1) ∧
    (RoundRobin [srvA, srvB, srvC] (2 ^ 63 - 1) = none ∧
     (-1 : Int) ≤ 2 ^ 63 - 1) := by
  decide

/-- Claim C10 (amended): over a non-empty pool with cursor `-1 ≤ c < MaxInt64`,
`RoundRobin` is total and returns the pool element at index `(c+1) mod n`; on
an empty pool it panics (remainder of a division by zero); at `c = MaxInt64`
the 64-bit increment wraps to `MinInt64 = -2^63` and it panics exactly when
`n` does not divide `2^63`; and for `MinInt64 ≤ c < -1` it panics exactly when
`n` does not divide `c+1` (Go's truncated remainder is then negative),
returning the first element when `n` divides `c+1`. -/
theorem roundRobin_totality_amended :
    (∀ (servers : List UpStreamServer) (c : Int), servers ≠ [] →
       -1 ≤ c → c < 2 ^ 63 - 1 →
       ∃ u, RoundRobin servers c = some u ∧
         servers[((c + 1).tmod (servers.length : Int)).toNat]? = some u) ∧
    (∀ c : Int, RoundRobin [] c = none) ∧
    (∀ servers : List UpStreamServer, servers ≠ [] →
       (RoundRobin servers (2 ^ 63 - 1) = none ↔
         ¬ ((servers.length : Int) ∣ 2 ^ 63))) ∧
    (∀ (servers : List UpStreamServer) (c : Int), servers ≠ [] →
       -(2 ^ 63) ≤ c → c < -1 →
       (RoundRobin servers c = none ↔ ¬ ((servers.length : Int) ∣ (c + 1)))) := by
  refine ⟨?_, ?_, ?_, ?_⟩
  · intro servers c hne hc hc2
    have hn : 0 < servers.length := List.length_pos.mpr hne
    have hw : wrapInt64 (c + 1) = c + 1 :=
      wrapInt64_eq_self (by omega) (by omega)
    have h0 : 0 ≤ (c + 1).tmod (servers.length : Int) :=
      Int.tmod_nonneg _ (by omega)
    have h1 : (c + 1).tmod (servers.length : Int) < (servers.length : Int) :=
      Int.tmod_lt_of_pos _ (by exact_mod_cast hn)
    have hidx : ((c + 1).tmod (servers.length : Int)).toNat < servers.length := by
      omega
    refine ⟨servers.get ⟨_, hidx⟩, ?_, ?_⟩
    · unfold RoundRobin
      rw [if_neg (by omega)]
      simp only [hw]
      rw [dif_pos ⟨h0, h1⟩]
    · exact List.getElem?_eq_getElem hidx
  · intro c; rfl
  · intro servers hne
    have hw : wrapInt64 (2 ^ 63 - 1 + 1) = -(2 ^ 63) := by
      unfold wrapInt64; omega
    rw [roundRobin_none_iff_of_nonpos hne (by rw [hw]; omega), hw, Int.dvd_neg]
  · intro servers c hne hc1 hc2
    have hw : wrapInt64 (c + 1) = c + 1 :=
      wrapInt64_eq_self (by omega) (by omega)
    rw [roundRobin_none_iff_of_nonpos hne (by rw [hw]; omega), hw]

/-- Claim C10 (witness): the amended statement at the two-element pool, at
cursors `0`, `5` over the empty pool, `MaxInt64`, and `-4`. -/
theorem roundRobin_totality_amended_witness :
    (∃ u, RoundRobin [srvA, srvB] 0 = some u ∧
       [srvA, srvB][(((0 : Int) + 1).tmod (([srvA, srvB].length : Nat) : Int)).toNat]? = some u) ∧
    RoundRobin [] 5 = none ∧
    (RoundRobin [srvA, srvB] (2 ^ 63 - 1) = none ↔
       ¬ ((([srvA, srvB].length : Nat) : Int) ∣ 2 ^ 63)) ∧
    (RoundRobin [srvA, srvB] (-4) = none ↔
       ¬ (((([srvA, srvB].length : Nat) : Int)) ∣ (-4 + 1))) :=
  ⟨roundRobin_totality_amended.1 [srvA, srvB] 0 (by decide) (by decide) (by decide),
   roundRobin_totality_amended.2.1 5,
   roundRobin_totality_amended.2.2.1 [srvA, srvB] (by decide),
   roundRobin_totality_amended.2.2.2 [srvA, srvB] (-4) (by decide) (by decide) (by decide)⟩

end Jinx
